import Mathlib

/-!
Verification of the chocobo breeding calculator core
(`src/utils/breeding.ts`, `src/store/chocoboStore.ts`, `src/schemas/chocobo.ts`).

JavaScript numbers are modelled as rationals (`ℚ`); the integer counter
`coveringsLeft` is modelled as `ℤ` (the schema validates it but the breeding
code itself performs no clamping, so the model keeps full integers).
-/

namespace ChocoboBreeding

/-- Parsed parent data (`ChocoboParentDataParsed` in `src/utils/breeding.ts`):
a gender tag, the coverings-left counter and the ten grandparent stat values
(five stats, each with a father and a mother allele). -/
structure ChocoboParentDataParsed where
  gender : String
  coveringsLeft : ℤ
  fatherMaxSpeed : ℚ
  fatherAcceleration : ℚ
  fatherEndurance : ℚ
  fatherStamina : ℚ
  fatherCunning : ℚ
  motherMaxSpeed : ℚ
  motherAcceleration : ℚ
  motherEndurance : ℚ
  motherStamina : ℚ
  motherCunning : ℚ
deriving DecidableEq

/-- A chocobo genotype (`ChocoboGenotype` in `src/utils/breeding.ts`):
`[father gene, mother gene]` for each of the 5 stats, in the fixed order
maxSpeed, acceleration, endurance, stamina, cunning. -/
structure ChocoboGenotype where
  stats : List (ℚ × ℚ)
deriving DecidableEq

/-- `cartesianProduct` from `src/utils/breeding.ts`: all combinations of one
element from each input list. -/
def cartesianProduct {α : Type} : List (List α) → List (List α)
  | [] => [[]]
  | [a] => a.map fun item => [item]
  | first :: rest =>
      let restProduct := cartesianProduct rest
      first.flatMap fun item => restProduct.map fun combo => item :: combo

/-- `countWithFive` from `createChocoboComparator`: the number of stats whose
pair contains at least one value equal to `5`. -/
def countWithFive (stats : List (ℚ × ℚ)) : ℕ :=
  (stats.filter fun p => decide (p.1 = 5) || decide (p.2 = 5)).length

/-- `countLocked` from `createChocoboComparator`: the number of stats whose
pair has both values equal to `5`. -/
def countLocked (stats : List (ℚ × ℚ)) : ℕ :=
  (stats.filter fun p => decide (p.1 = 5) && decide (p.2 = 5)).length

/-- `getStatAvg` from `createChocoboComparator`: the average of the two genes
of the stat at `index` (stat indices: 0 = maxSpeed, 1 = acceleration,
2 = endurance, 3 = stamina, 4 = cunning). -/
def getStatAvg (stats : List (ℚ × ℚ)) (index : ℕ) : ℚ :=
  let p := stats.getD index (0, 0)
  (p.1 + p.2) / 2

/-- `calcFormula3` (regular racing mode): maxSpeed + stamina − cunning −
acceleration, over the per-stat averages. -/
def calcFormula3 (stats : List (ℚ × ℚ)) : ℚ :=
  getStatAvg stats 0 + getStatAvg stats 3 - getStatAvg stats 4 - getStatAvg stats 1

/-- `calcFormula4` (super-sprint mode): stamina + endurance − cunning −
acceleration, over the per-stat averages. -/
def calcFormula4 (stats : List (ℚ × ℚ)) : ℚ :=
  getStatAvg stats 3 + getStatAvg stats 2 - getStatAvg stats 4 - getStatAvg stats 1

/-- The comparator produced by `createChocoboComparator` in
`src/utils/breeding.ts` (ascending sort, worst to best): criterion 1 compares
the counts of stats containing a 5, criterion 2 the counts of locked (5,5)
stats, then a mode-dependent racing formula and one final tiebreaker
(endurance average in regular mode, maxSpeed average in super-sprint mode). -/
def createChocoboComparator (superSprint : Bool) (a b : ChocoboGenotype) : ℚ :=
  let statsA := a.stats
  let statsB := b.stats
  let aWithFive := countWithFive statsA
  let bWithFive := countWithFive statsB
  if aWithFive ≠ bWithFive then (aWithFive : ℚ) - (bWithFive : ℚ)
  else
    let aLocked := countLocked statsA
    let bLocked := countLocked statsB
    if aLocked ≠ bLocked then (aLocked : ℚ) - (bLocked : ℚ)
    else if !superSprint then
      let aFormula := calcFormula3 statsA
      let bFormula := calcFormula3 statsB
      if aFormula ≠ bFormula then aFormula - bFormula
      else getStatAvg statsA 2 - getStatAvg statsB 2
    else
      let aFormula := calcFormula4 statsA
      let bFormula := calcFormula4 statsB
      if aFormula ≠ bFormula then aFormula - bFormula
      else getStatAvg statsA 0 - getStatAvg statsB 0

/-- `parent1Stats` / `parent2Stats` in `evaluateBreedingPair`: the five
`[father, mother]` gene pairs of one parent, in the fixed stat order. -/
def parentStatsList (p : ChocoboParentDataParsed) : List (ℚ × ℚ) :=
  [(p.fatherMaxSpeed, p.motherMaxSpeed),
   (p.fatherAcceleration, p.motherAcceleration),
   (p.fatherEndurance, p.motherEndurance),
   (p.fatherStamina, p.motherStamina),
   (p.fatherCunning, p.motherCunning)]

/-- `statOptions` in `evaluateBreedingPair`: for each of the 5 stats, the four
gene combinations `[(p1F, p2F), (p1F, p2M), (p1M, p2F), (p1M, p2M)]`. -/
def statOptions (parent1 parent2 : ChocoboParentDataParsed) :
    List (List (ℚ × ℚ)) :=
  (List.range 5).map fun i =>
    let p1Genes := (parentStatsList parent1).getD i (0, 0)
    let p2Genes := (parentStatsList parent2).getD i (0, 0)
    [(p1Genes.1, p2Genes.1), (p1Genes.1, p2Genes.2),
     (p1Genes.2, p2Genes.1), (p1Genes.2, p2Genes.2)]

/-- `allGenotypeCombos` in `evaluateBreedingPair`: the cartesian product of the
five per-stat option lists (4^5 = 1024 combinations). -/
def allGenotypeCombos (parent1 parent2 : ChocoboParentDataParsed) :
    List (List (ℚ × ℚ)) :=
  cartesianProduct (statOptions parent1 parent2)

/-- `children` in `evaluateBreedingPair`: the 1024 combinations wrapped as
`ChocoboGenotype` values. -/
def genotypeChildren (parent1 parent2 : ChocoboParentDataParsed) :
    List ChocoboGenotype :=
  (allGenotypeCombos parent1 parent2).map fun statArray => ⟨statArray⟩

/-- `siblings` in `evaluateBreedingPair`:
`Math.min(9, parent1.coveringsLeft, parent2.coveringsLeft)`. -/
def siblings (parent1 parent2 : ChocoboParentDataParsed) : ℤ :=
  min 9 (min parent1.coveringsLeft parent2.coveringsLeft)

/-- `evaluateBreedingPair` from `src/utils/breeding.ts`: builds the 1024
genotype universe, sorts it with the comparator, then sums
`i * (((i+1)/1024)^siblings - (i/1024)^siblings)` over `i` in `0..1023`.
`Math.pow` on an integral exponent is modelled by `zpow` on `ℚ`. -/
def evaluateBreedingPair (parent1 parent2 : ChocoboParentDataParsed)
    (superSprint : Bool) : ℚ :=
  let children := genotypeChildren parent1 parent2
  let sortedChildren := children.mergeSort fun a b =>
    decide (createChocoboComparator superSprint a b ≤ 0)
  let totalSpace : ℚ := 1024
  let siblings : ℤ := min 9 (min parent1.coveringsLeft parent2.coveringsLeft)
  (List.range 1024).foldl (fun (expectedRankSum : ℚ) (i : ℕ) =>
    let rankValue : ℚ := (i : ℚ)
    let cdfCurrent := ((i : ℚ) + 1) / totalSpace
    let cdfPrev := (i : ℚ) / totalSpace
    let probIsWinner := cdfCurrent ^ siblings - cdfPrev ^ siblings
    expectedRankSum + rankValue * probIsWinner) 0

/-- The expectation loop of `evaluateBreedingPair` as a function of the
siblings count alone (the loop body never reads the sorted genotype list). -/
def expectedBestRank (siblings : ℤ) : ℚ :=
  let totalSpace : ℚ := 1024
  (List.range 1024).foldl (fun (expectedRankSum : ℚ) (i : ℕ) =>
    let rankValue : ℚ := (i : ℚ)
    let cdfCurrent := ((i : ℚ) + 1) / totalSpace
    let cdfPrev := (i : ℚ) / totalSpace
    let probIsWinner := cdfCurrent ^ siblings - cdfPrev ^ siblings
    expectedRankSum + rankValue * probIsWinner) 0

lemma evaluateBreedingPair_eq_expectedBestRank
    (parent1 parent2 : ChocoboParentDataParsed) (superSprint : Bool) :
    evaluateBreedingPair parent1 parent2 superSprint =
      expectedBestRank (siblings parent1 parent2) := rfl

attribute [irreducible] evaluateBreedingPair

/-- The expectation with a natural siblings count, written as a `Finset` sum. -/
def natScore (s : ℕ) : ℚ :=
  ∑ i ∈ Finset.range 1024,
    (i : ℚ) * ((((i : ℚ) + 1) / 1024) ^ s - ((i : ℚ) / 1024) ^ s)

lemma foldl_add_eq_sum (f : ℕ → ℚ) (n : ℕ) (init : ℚ) :
    (List.range n).foldl (fun acc i => acc + f i) init =
      init + ∑ i ∈ Finset.range n, f i := by
  induction n with
  | zero => simp
  | succ n ih =>
      rw [List.range_succ, List.foldl_append, ih, Finset.sum_range_succ]
      simp [add_assoc]

set_option maxRecDepth 4000 in
lemma expectedBestRank_eq_sum (s : ℤ) :
    expectedBestRank s =
      ∑ i ∈ Finset.range 1024,
        (i : ℚ) * ((((i : ℚ) + 1) / 1024) ^ s - ((i : ℚ) / 1024) ^ s) := by
  simp only [expectedBestRank]
  rw [foldl_add_eq_sum
    (fun i : ℕ => (i : ℚ) * ((((i : ℚ) + 1) / 1024) ^ s - ((i : ℚ) / 1024) ^ s)),
    zero_add]

lemma expectedBestRank_natCast (n : ℕ) :
    expectedBestRank (n : ℤ) = natScore n := by
  rw [expectedBestRank_eq_sum, natScore]
  exact Finset.sum_congr rfl fun i _ => by rw [zpow_natCast, zpow_natCast]

lemma sum_mul_sub_telescope (a : ℕ → ℚ) (n : ℕ) :
    ∑ i ∈ Finset.range n, (i : ℚ) * (a (i + 1) - a i) =
      (n : ℚ) * a n - ∑ i ∈ Finset.Icc 1 n, a i := by
  induction n with
  | zero => simp
  | succ n ih =>
      rw [Finset.sum_range_succ, ih, Finset.sum_Icc_succ_top (by omega : 1 ≤ n + 1)]
      push_cast
      ring

lemma natScore_closed (s : ℕ) :
    natScore s = 1023 - ∑ i ∈ Finset.Icc (1 : ℕ) 1023, ((i : ℚ) / 1024) ^ s := by
  have h : natScore s =
      ∑ i ∈ Finset.range 1024,
        (i : ℚ) * ((((i + 1 : ℕ) : ℚ) / 1024) ^ s - ((i : ℚ) / 1024) ^ s) := by
    unfold natScore
    exact Finset.sum_congr rfl fun i _ => by push_cast; ring_nf
  rw [h, sum_mul_sub_telescope (fun i => ((i : ℚ) / 1024) ^ s) 1024,
    Finset.sum_Icc_succ_top (by omega : (1 : ℕ) ≤ 1024)]
  norm_num
  ring

lemma natScore_strict_mono_succ (s : ℕ) : natScore s < natScore (s + 1) := by
  rw [natScore_closed, natScore_closed]
  have h : ∑ i ∈ Finset.Icc (1 : ℕ) 1023, ((i : ℚ) / 1024) ^ (s + 1) <
      ∑ i ∈ Finset.Icc (1 : ℕ) 1023, ((i : ℚ) / 1024) ^ s := by
    apply Finset.sum_lt_sum_of_nonempty
    · exact ⟨1, by decide⟩
    · intro i hi
      rw [Finset.mem_Icc] at hi
      have h0 : (0 : ℚ) < (i : ℚ) / 1024 := by
        apply div_pos
        · exact_mod_cast Nat.lt_of_lt_of_le Nat.zero_lt_one hi.1
        · norm_num
      have h1 : (i : ℚ) / 1024 < 1 := by
        rw [div_lt_one (by norm_num)]
        exact_mod_cast Nat.lt_of_le_of_lt hi.2 (by norm_num)
      calc ((i : ℚ) / 1024) ^ (s + 1)
          = ((i : ℚ) / 1024) ^ s * ((i : ℚ) / 1024) := pow_succ _ _
        _ < ((i : ℚ) / 1024) ^ s * 1 := by
            exact mul_lt_mul_of_pos_left h1 (pow_pos h0 s)
        _ = ((i : ℚ) / 1024) ^ s := mul_one _
  linarith

lemma natScore_lt_1023 (s : ℕ) : natScore s < 1023 := by
  rw [natScore_closed]
  have h : (0 : ℚ) < ∑ i ∈ Finset.Icc (1 : ℕ) 1023, ((i : ℚ) / 1024) ^ s := by
    apply Finset.sum_pos
    · intro i hi
      rw [Finset.mem_Icc] at hi
      apply pow_pos
      apply div_pos
      · exact_mod_cast Nat.lt_of_lt_of_le Nat.zero_lt_one hi.1
      · norm_num
    · exact ⟨1, by decide⟩
  linarith

lemma natScore_zero : natScore 0 = 0 := by
  rw [natScore_closed]
  rw [Finset.sum_congr rfl fun i _ => pow_zero _]
  simp

/-- The four comparison keys the comparator consults, in order: count of
stats containing a 5, count of locked stats, the mode-dependent racing
formula, and the mode-dependent final tiebreaker average. -/
def keyTuple (superSprint : Bool) (g : ChocoboGenotype) : ℚ × ℚ × ℚ × ℚ :=
  ((countWithFive g.stats : ℚ), (countLocked g.stats : ℚ),
   (if !superSprint then calcFormula3 g.stats else calcFormula4 g.stats),
   (if !superSprint then getStatAvg g.stats 2 else getStatAvg g.stats 0))

/-- Four-way lexicographic subtraction: the abstract shape of the comparator's
cascade of tiebreakers. -/
def lexSub (x y : ℚ × ℚ × ℚ × ℚ) : ℚ :=
  if x.1 ≠ y.1 then x.1 - y.1
  else if x.2.1 ≠ y.2.1 then x.2.1 - y.2.1
  else if x.2.2.1 ≠ y.2.2.1 then x.2.2.1 - y.2.2.1
  else x.2.2.2 - y.2.2.2

/-- Pack a quadruple into the lexicographic order on `ℚ ×ₗ ℚ ×ₗ ℚ ×ₗ ℚ`. -/
def toLex4 (x : ℚ × ℚ × ℚ × ℚ) : ℚ ×ₗ (ℚ ×ₗ (ℚ ×ₗ ℚ)) :=
  toLex (x.1, toLex (x.2.1, toLex (x.2.2.1, x.2.2.2)))

lemma comparator_eq_lexSub (ss : Bool) (a b : ChocoboGenotype) :
    createChocoboComparator ss a b = lexSub (keyTuple ss a) (keyTuple ss b) := by
  cases ss <;>
    simp [createChocoboComparator, lexSub, keyTuple, Nat.cast_inj]

lemma lexSub_pos_iff (x y : ℚ × ℚ × ℚ × ℚ) :
    0 < lexSub x y ↔ toLex4 y < toLex4 x := by
  obtain ⟨x1, x2, x3, x4⟩ := x
  obtain ⟨y1, y2, y3, y4⟩ := y
  simp only [lexSub, toLex4, Prod.Lex.lt_iff]
  split_ifs with h1 h2 h3
  · rw [sub_pos]
    constructor
    · exact fun h => Or.inl h
    · rintro (h | ⟨e, _⟩)
      · exact h
      · exact absurd e.symm h1
  · rw [not_not] at h1
    subst h1
    rw [sub_pos]
    constructor
    · exact fun h => Or.inr ⟨rfl, Or.inl h⟩
    · rintro (h | ⟨-, h | ⟨e, -⟩⟩)
      · exact absurd h (lt_irrefl _)
      · exact h
      · exact absurd e.symm h2
  · rw [not_not] at h1 h2
    subst h1; subst h2
    rw [sub_pos]
    constructor
    · exact fun h => Or.inr ⟨rfl, Or.inr ⟨rfl, Or.inl h⟩⟩
    · rintro (h | ⟨-, h | ⟨-, h | ⟨e, -⟩⟩⟩)
      · exact absurd h (lt_irrefl _)
      · exact absurd h (lt_irrefl _)
      · exact h
      · exact absurd e.symm h3
  · rw [not_not] at h1 h2 h3
    subst h1; subst h2; subst h3
    rw [sub_pos]
    constructor
    · exact fun h => Or.inr ⟨rfl, Or.inr ⟨rfl, Or.inr ⟨rfl, h⟩⟩⟩
    · rintro (h | ⟨-, h | ⟨-, h | ⟨-, h⟩⟩⟩)
      · exact absurd h (lt_irrefl _)
      · exact absurd h (lt_irrefl _)
      · exact absurd h (lt_irrefl _)
      · exact h

lemma lexSub_eq_zero_iff (x y : ℚ × ℚ × ℚ × ℚ) :
    lexSub x y = 0 ↔ x = y := by
  obtain ⟨x1, x2, x3, x4⟩ := x
  obtain ⟨y1, y2, y3, y4⟩ := y
  simp only [lexSub, Prod.mk.injEq]
  split_ifs with h1 h2 h3
  · rw [sub_eq_zero]
    exact ⟨fun h => absurd h h1, fun ⟨e, _⟩ => absurd e h1⟩
  · rw [not_not] at h1
    rw [sub_eq_zero]
    exact ⟨fun h => absurd h h2, fun ⟨_, e, _⟩ => absurd e h2⟩
  · rw [not_not] at h1 h2
    rw [sub_eq_zero]
    exact ⟨fun h => absurd h h3, fun ⟨_, _, e, _⟩ => absurd e h3⟩
  · rw [not_not] at h1 h2 h3
    rw [sub_eq_zero]
    exact ⟨fun h => ⟨h1, h2, h3, h⟩, fun ⟨_, _, _, e⟩ => e⟩

lemma comparator_pos_iff (ss : Bool) (a b : ChocoboGenotype) :
    0 < createChocoboComparator ss a b ↔
      toLex4 (keyTuple ss b) < toLex4 (keyTuple ss a) := by
  rw [comparator_eq_lexSub, lexSub_pos_iff]

lemma comparator_eq_zero_iff (ss : Bool) (a b : ChocoboGenotype) :
    createChocoboComparator ss a b = 0 ↔ keyTuple ss a = keyTuple ss b := by
  rw [comparator_eq_lexSub, lexSub_eq_zero_iff]

/-- The ten validated stat values of a chocobo
(`ChocoboStatsSchema` in `src/schemas/chocobo.ts`). -/
structure ChocoboStats where
  fatherMaxSpeed : ℚ
  fatherAcceleration : ℚ
  fatherEndurance : ℚ
  fatherStamina : ℚ
  fatherCunning : ℚ
  motherMaxSpeed : ℚ
  motherAcceleration : ℚ
  motherEndurance : ℚ
  motherStamina : ℚ
  motherCunning : ℚ
deriving DecidableEq

/-- A stored chocobo record (`ChocoboSchema` in `src/schemas/chocobo.ts`),
restricted to the fields the optimal-pair search reads. -/
structure Chocobo where
  id : String
  gender : String
  stats : ChocoboStats
  coveringsLeft : ℤ
deriving DecidableEq

/-- `convertToParentDataParsed` from `src/store/chocoboStore.ts`. -/
def convertToParentDataParsed (chocobo : Chocobo) : ChocoboParentDataParsed :=
  ⟨chocobo.gender, chocobo.coveringsLeft,
   chocobo.stats.fatherMaxSpeed, chocobo.stats.fatherAcceleration,
   chocobo.stats.fatherEndurance, chocobo.stats.fatherStamina,
   chocobo.stats.fatherCunning,
   chocobo.stats.motherMaxSpeed, chocobo.stats.motherAcceleration,
   chocobo.stats.motherEndurance, chocobo.stats.motherStamina,
   chocobo.stats.motherCunning⟩

/-- `OptimalPairResult` from `src/store/chocoboStore.ts`. -/
structure OptimalPairResult where
  father : Chocobo
  mother : Chocobo
  score : ℚ
deriving DecidableEq

/-- The score the search assigns to a `(male, female)` pair:
`evaluateBreedingPair(maleData, femaleData, false)`. -/
def pairScore (p : Chocobo × Chocobo) : ℚ :=
  evaluateBreedingPair (convertToParentDataParsed p.1)
    (convertToParentDataParsed p.2) false

/-- `findOptimalBreedingPair` from `src/store/chocoboStore.ts`, applied to the
already-filtered candidate list. The JS locals `bestPair = null` together with
`bestScore = -Infinity` are modelled by the single `none` accumulator: the
strict test `score > bestScore` accepts the first pair unconditionally
(every real score exceeds negative infinity) and later pairs only when
strictly greater. -/
def findOptimalBreedingPair (chocobos : List Chocobo) : Option OptimalPairResult :=
  let males := chocobos.filter fun c => c.gender == "male"
  let females := chocobos.filter fun c => c.gender == "female"
  if males.isEmpty || females.isEmpty then none
  else
    males.foldl (fun best male =>
      females.foldl (fun best female =>
        let score := evaluateBreedingPair (convertToParentDataParsed male)
          (convertToParentDataParsed female) false
        match best with
        | none => some ⟨male, female, score⟩
        | some b => if score > b.score then some ⟨male, female, score⟩ else some b)
        best) none

/-- The male-outer, female-inner iteration order of the search's nested loops,
flattened into one list of pairs. -/
def crossList (males females : List Chocobo) : List (Chocobo × Chocobo) :=
  males.flatMap fun m => females.map fun f => (m, f)

/-- First maximal element of a list under a score function: a later element
replaces the current one only when its score is strictly greater, so the
element returned is the earliest one attaining the maximum score. -/
def firstMaxBy {α : Type} (f : α → ℚ) : List α → Option α
  | [] => none
  | x :: xs =>
      match firstMaxBy f xs with
      | none => some x
      | some y => if f y > f x then some y else some x

/-- One step of the best-pair tracking loop, abstracted over the score. -/
def bestStep {α : Type} (f : α → ℚ) (best : Option α) (x : α) : Option α :=
  match best with
  | none => some x
  | some y => if f x > f y then some x else some y

lemma firstMaxBy_nil {α : Type} (f : α → ℚ) : firstMaxBy f [] = none := rfl

lemma firstMaxBy_cons_none {α : Type} (f : α → ℚ) {xs : List α}
    (h : firstMaxBy f xs = none) (x : α) :
    firstMaxBy f (x :: xs) = some x := by
  show (match firstMaxBy f xs with
        | none => some x
        | some y => if f y > f x then some y else some x) = some x
  rw [h]

lemma firstMaxBy_cons_some {α : Type} (f : α → ℚ) {xs : List α} {y : α}
    (h : firstMaxBy f xs = some y) (x : α) :
    firstMaxBy f (x :: xs) = if f y > f x then some y else some x := by
  show (match firstMaxBy f xs with
        | none => some x
        | some y => if f y > f x then some y else some x) = _
  rw [h]

lemma foldl_bestStep_some {α : Type} (f : α → ℚ) (l : List α) (b : α) :
    l.foldl (bestStep f) (some b) =
      (firstMaxBy f l).elim (some b) (bestStep f (some b)) := by
  induction l generalizing b with
  | nil => simp [firstMaxBy_nil]
  | cons x xs ih =>
      show (xs.foldl (bestStep f) (bestStep f (some b) x)) = _
      by_cases hxb : f x > f b
      · rw [show bestStep f (some b) x = some x by simp [bestStep, hxb], ih]
        cases h : firstMaxBy f xs with
        | none =>
            rw [firstMaxBy_cons_none f h]
            simp [bestStep, hxb]
        | some y =>
            rw [firstMaxBy_cons_some f h]
            by_cases hyx : f y > f x
            · rw [if_pos hyx]
              simp [bestStep, hyx, lt_trans hxb hyx]
            · rw [if_neg hyx]
              simp [bestStep, hyx, hxb]
      · rw [show bestStep f (some b) x = some b by simp [bestStep, hxb], ih]
        cases h : firstMaxBy f xs with
        | none =>
            rw [firstMaxBy_cons_none f h]
            simp [bestStep, hxb]
        | some y =>
            rw [firstMaxBy_cons_some f h]
            by_cases hyx : f y > f x
            · rw [if_pos hyx]
            · rw [if_neg hyx]
              have hyb : ¬ f y > f b := fun hyb =>
                hxb (lt_of_lt_of_le hyb (le_of_not_lt hyx))
              simp [bestStep, hyb, hxb]

lemma foldl_bestStep_none {α : Type} (f : α → ℚ) (l : List α) :
    l.foldl (bestStep f) none = firstMaxBy f l := by
  cases l with
  | nil => rfl
  | cons x xs =>
      show xs.foldl (bestStep f) (bestStep f none x) = _
      rw [show bestStep f none x = some x from rfl, foldl_bestStep_some]
      cases h : firstMaxBy f xs with
      | none =>
          rw [firstMaxBy_cons_none f h]
          rfl
      | some y =>
          rw [firstMaxBy_cons_some f h]
          rfl

lemma firstMaxBy_eq_none_iff {α : Type} (f : α → ℚ) (l : List α) :
    firstMaxBy f l = none ↔ l = [] := by
  cases l with
  | nil => simp [firstMaxBy_nil]
  | cons x xs =>
      cases h : firstMaxBy f xs with
      | none => rw [firstMaxBy_cons_none f h]; simp
      | some y =>
          rw [firstMaxBy_cons_some f h]
          constructor
          · intro hc
            by_cases hyx : f y > f x <;> simp [hyx] at hc
          · intro hc
            cases hc

lemma firstMaxBy_mem_le {α : Type} (f : α → ℚ) (l : List α) (r : α)
    (h : firstMaxBy f l = some r) : r ∈ l ∧ ∀ x ∈ l, f x ≤ f r := by
  induction l generalizing r with
  | nil => cases h
  | cons x xs ih =>
      cases hxs : firstMaxBy f xs with
      | none =>
          rw [firstMaxBy_cons_none f hxs] at h
          cases h
          have hnil : xs = [] := (firstMaxBy_eq_none_iff f xs).mp hxs
          subst hnil
          refine ⟨List.mem_cons_self _ _, fun z hz => ?_⟩
          cases List.mem_cons.mp hz with
          | inl e => exact le_of_eq (congrArg f e)
          | inr hmem => cases hmem
      | some y =>
          rw [firstMaxBy_cons_some f hxs] at h
          obtain ⟨hymem, hyle⟩ := ih y hxs
          by_cases hyx : f y > f x
          · rw [if_pos hyx] at h
            cases h
            refine ⟨List.mem_cons_of_mem _ hymem, fun z hz => ?_⟩
            cases List.mem_cons.mp hz with
            | inl e => exact (le_of_eq (congrArg f e)).trans (le_of_lt hyx)
            | inr hmem => exact hyle z hmem
          · rw [if_neg hyx] at h
            cases h
            refine ⟨List.mem_cons_self _ _, fun z hz => ?_⟩
            cases List.mem_cons.mp hz with
            | inl e => exact le_of_eq (congrArg f e)
            | inr hmem => exact (hyle z hmem).trans (le_of_not_lt hyx)

/-- The `OptimalPairResult` the search builds for a pair: the two chocobos
plus their score. -/
def resultOf (p : Chocobo × Chocobo) : OptimalPairResult :=
  ⟨p.1, p.2, pairScore p⟩

/-- The body of the search's inner loop, as a step function on the
accumulator. -/
def searchStep (best : Option OptimalPairResult) (p : Chocobo × Chocobo) :
    Option OptimalPairResult :=
  match best with
  | none => some (resultOf p)
  | some b => if pairScore p > b.score then some (resultOf p) else some b

lemma foldl_search_nested (males females : List Chocobo)
    (init : Option OptimalPairResult) :
    males.foldl (fun best male =>
      females.foldl (fun best female =>
        let score := evaluateBreedingPair (convertToParentDataParsed male)
          (convertToParentDataParsed female) false
        match best with
        | none => some ⟨male, female, score⟩
        | some b => if score > b.score then some ⟨male, female, score⟩ else some b)
        best) init =
    (crossList males females).foldl searchStep init := by
  induction males generalizing init with
  | nil => rfl
  | cons m ms ih =>
      rw [List.foldl_cons, ih]
      have hcross : crossList (m :: ms) females =
          (females.map fun f => (m, f)) ++ crossList ms females := by
        simp [crossList]
      rw [hcross, List.foldl_append, List.foldl_map]
      rfl

set_option maxRecDepth 40000 in
lemma foldl_searchStep_map (l : List (Chocobo × Chocobo))
    (acc : Option (Chocobo × Chocobo)) :
    l.foldl searchStep (acc.map resultOf) =
      (l.foldl (bestStep pairScore) acc).map resultOf := by
  induction l generalizing acc with
  | nil => rfl
  | cons p ps ih =>
      rw [List.foldl_cons, List.foldl_cons]
      have hstep : searchStep (acc.map resultOf) p =
          (bestStep pairScore acc p).map resultOf := by
        cases acc with
        | none => rfl
        | some q =>
            show (if pairScore p > (resultOf q).score
                  then some (resultOf p) else some (resultOf q)) =
              (if pairScore p > pairScore q then some p else some q).map resultOf
            rw [show (resultOf q).score = pairScore q from rfl]
            by_cases hpq : pairScore p > pairScore q
            · rw [if_pos hpq, if_pos hpq]
              rfl
            · rw [if_neg hpq, if_neg hpq]
              rfl
      rw [hstep, ih]

lemma search_eq_firstMax (males females : List Chocobo) :
    (crossList males females).foldl searchStep none =
      (firstMaxBy pairScore (crossList males females)).map resultOf := by
  have h := foldl_searchStep_map (crossList males females) none
  rw [Option.map_none'] at h
  rw [h, foldl_bestStep_none]

lemma findOptimal_char (chocobos : List Chocobo) :
    findOptimalBreedingPair chocobos =
      if (chocobos.filter fun c => c.gender == "male").isEmpty ||
         (chocobos.filter fun c => c.gender == "female").isEmpty then none
      else
        (firstMaxBy pairScore
          (crossList (chocobos.filter fun c => c.gender == "male")
            (chocobos.filter fun c => c.gender == "female"))).map resultOf := by
  simp only [findOptimalBreedingPair]
  split_ifs with h
  · rfl
  · rw [foldl_search_nested, search_eq_firstMax]

lemma expectedBestRank_lt_succ (k : ℤ) (hk : 0 ≤ k) :
    expectedBestRank k < expectedBestRank (k + 1) := by
  obtain ⟨n, rfl⟩ : ∃ n : ℕ, k = (n : ℤ) := ⟨k.toNat, (Int.toNat_of_nonneg hk).symm⟩
  have h : ((n : ℤ) + 1) = ((n + 1 : ℕ) : ℤ) := by push_cast; ring
  rw [h, expectedBestRank_natCast, expectedBestRank_natCast]
  exact natScore_strict_mono_succ n

/-- All ten stat values of a parsed parent lie in the validated domain range
1..4 of `StatValueSchema` (`src/schemas/chocobo.ts`). -/
def statsInRange (p : ChocoboParentDataParsed) : Prop :=
  (1 ≤ p.fatherMaxSpeed ∧ p.fatherMaxSpeed ≤ 4) ∧
  (1 ≤ p.fatherAcceleration ∧ p.fatherAcceleration ≤ 4) ∧
  (1 ≤ p.fatherEndurance ∧ p.fatherEndurance ≤ 4) ∧
  (1 ≤ p.fatherStamina ∧ p.fatherStamina ≤ 4) ∧
  (1 ≤ p.fatherCunning ∧ p.fatherCunning ≤ 4) ∧
  (1 ≤ p.motherMaxSpeed ∧ p.motherMaxSpeed ≤ 4) ∧
  (1 ≤ p.motherAcceleration ∧ p.motherAcceleration ≤ 4) ∧
  (1 ≤ p.motherEndurance ∧ p.motherEndurance ≤ 4) ∧
  (1 ≤ p.motherStamina ∧ p.motherStamina ≤ 4) ∧
  (1 ≤ p.motherCunning ∧ p.motherCunning ≤ 4)

instance : DecidablePred statsInRange := fun p => by
  unfold statsInRange; infer_instance

/-- All alleles of a genotype lie in the validated domain range 1..4 of
`StatValueSchema`. -/
def genotypeInRange (g : ChocoboGenotype) : Prop :=
  ∀ p ∈ g.stats, (1 ≤ p.1 ∧ p.1 ≤ 4) ∧ (1 ≤ p.2 ∧ p.2 ≤ 4)

instance : DecidablePred genotypeInRange := fun g => by
  unfold genotypeInRange; infer_instance

/-- The domain's maximum stat value, per `StatValueSchema`
(`z.number().int().min(1).max(4)`). -/
def statValueMax : ℚ := 4

/-- Stated from the claim's wording (not from the code): the number of stats
containing at least one allele equal to the domain's maximum stat value. -/
def countMaxAlleleStats (g : ChocoboGenotype) : ℕ :=
  (g.stats.filter fun p =>
    decide (p.1 = statValueMax) || decide (p.2 = statValueMax)).length

/-- Concrete parent: male, 9 coverings, mixed in-range stats. -/
def witnessParentA : ChocoboParentDataParsed :=
  ⟨"male", 9, 1, 2, 3, 4, 1, 2, 3, 4, 1, 2⟩

/-- Concrete parent: female, 7 coverings, mixed in-range stats. -/
def witnessParentB : ChocoboParentDataParsed :=
  ⟨"female", 7, 4, 3, 2, 1, 4, 3, 2, 1, 4, 3⟩

/-- Concrete parent: male, 7 coverings, all stats at the domain maximum. -/
def witnessParentC : ChocoboParentDataParsed :=
  ⟨"male", 7, 4, 4, 4, 4, 4, 4, 4, 4, 4, 4⟩

/-- Concrete parent: female, 8 coverings, all stats at the domain minimum. -/
def witnessParentD : ChocoboParentDataParsed :=
  ⟨"female", 8, 1, 1, 1, 1, 1, 1, 1, 1, 1, 1⟩

/-- Concrete parent: male, 0 coverings left. -/
def zeroCovParent : ChocoboParentDataParsed :=
  ⟨"male", 0, 2, 2, 2, 2, 2, 2, 2, 2, 2, 2⟩

/-- Concrete parent: male, −1 coverings left (outside the validated range). -/
def negativeCovParent : ChocoboParentDataParsed :=
  ⟨"male", -1, 2, 2, 2, 2, 2, 2, 2, 2, 2, 2⟩

/-- Fully locked father: every allele at the domain maximum 4, 9 coverings. -/
def maxFather : ChocoboParentDataParsed :=
  ⟨"male", 9, 4, 4, 4, 4, 4, 4, 4, 4, 4, 4⟩

/-- Fully locked mother: every allele at the domain maximum 4, 9 coverings. -/
def maxMother : ChocoboParentDataParsed :=
  ⟨"female", 9, 4, 4, 4, 4, 4, 4, 4, 4, 4, 4⟩

/-- Replace only the coverings-left counter, holding all stats fixed. -/
def setCoveringsLeft (p : ChocoboParentDataParsed) (c : ℤ) :
    ChocoboParentDataParsed :=
  ⟨p.gender, c, p.fatherMaxSpeed, p.fatherAcceleration, p.fatherEndurance,
   p.fatherStamina, p.fatherCunning, p.motherMaxSpeed, p.motherAcceleration,
   p.motherEndurance, p.motherStamina, p.motherCunning⟩

/-- C1: for parents with stat values in the domain range and coveringsLeft in
0..10, `evaluateBreedingPair` returns
`Σ_{i=0}^{1023} i · (((i+1)/1024)^s − (i/1024)^s)` where
`s = min(9, parent1.coveringsLeft, parent2.coveringsLeft)` — the expected
value of the maximum rank among `s` uniform draws from the 1024 ranks. -/
theorem evaluateBreedingPair_formula (p1 p2 : ChocoboParentDataParsed)
    (ss : Bool)
    (hc1 : 0 ≤ p1.coveringsLeft) (hc1' : p1.coveringsLeft ≤ 10)
    (hc2 : 0 ≤ p2.coveringsLeft) (hc2' : p2.coveringsLeft ≤ 10)
    (hs1 : statsInRange p1) (hs2 : statsInRange p2) :
    evaluateBreedingPair p1 p2 ss =
      ∑ i ∈ Finset.range 1024,
        (i : ℚ) *
          ((((i : ℚ) + 1) / 1024) ^
              min 9 (min p1.coveringsLeft p2.coveringsLeft) -
            ((i : ℚ) / 1024) ^
              min 9 (min p1.coveringsLeft p2.coveringsLeft)) := by
  rw [evaluateBreedingPair_eq_expectedBestRank, expectedBestRank_eq_sum]
  rfl

/-- Witness for C1 at concrete in-range parents. -/
theorem evaluateBreedingPair_formula_witness :
    (0 ≤ witnessParentA.coveringsLeft ∧ witnessParentA.coveringsLeft ≤ 10 ∧
     0 ≤ witnessParentB.coveringsLeft ∧ witnessParentB.coveringsLeft ≤ 10 ∧
     statsInRange witnessParentA ∧ statsInRange witnessParentB) ∧
    evaluateBreedingPair witnessParentA witnessParentB false =
      ∑ i ∈ Finset.range 1024,
        (i : ℚ) *
          ((((i : ℚ) + 1) / 1024) ^
              min 9 (min witnessParentA.coveringsLeft
                witnessParentB.coveringsLeft) -
            ((i : ℚ) / 1024) ^
              min 9 (min witnessParentA.coveringsLeft
                witnessParentB.coveringsLeft)) :=
  ⟨⟨by decide, by decide, by decide, by decide, by decide, by decide⟩,
   evaluateBreedingPair_formula witnessParentA witnessParentB false
     (by decide) (by decide) (by decide) (by decide) (by decide) (by decide)⟩

/-- C2: two calls with the same `min(9, coverings₁, coverings₂)` return equal
scores: the result is independent of all twenty stat values and of the
superSprint flag. -/
theorem evaluateBreedingPair_depends_only_on_siblings
    (p1 p2 q1 q2 : ChocoboParentDataParsed) (ss ss' : Bool)
    (h : siblings p1 p2 = siblings q1 q2) :
    evaluateBreedingPair p1 p2 ss = evaluateBreedingPair q1 q2 ss' := by
  rw [evaluateBreedingPair_eq_expectedBestRank,
    evaluateBreedingPair_eq_expectedBestRank, h]

/-- Witness for C2: pairs with entirely different stats and flags but the same
effective siblings count score identically. -/
theorem evaluateBreedingPair_depends_only_on_siblings_witness :
    siblings witnessParentA witnessParentB =
      siblings witnessParentC witnessParentD ∧
    evaluateBreedingPair witnessParentA witnessParentB false =
      evaluateBreedingPair witnessParentC witnessParentD true :=
  ⟨by decide,
   evaluateBreedingPair_depends_only_on_siblings witnessParentA witnessParentB
     witnessParentC witnessParentD false true (by decide)⟩

/-- C8: if either parent has 0 coverings left (the other being nonnegative),
the siblings count is 0 and the score is exactly 0, for all stat values and
both modes. -/
theorem evaluateBreedingPair_zero_coverings
    (p1 p2 : ChocoboParentDataParsed) (ss : Bool)
    (h : p1.coveringsLeft = 0 ∨ p2.coveringsLeft = 0)
    (h1 : 0 ≤ p1.coveringsLeft) (h2 : 0 ≤ p2.coveringsLeft) :
    siblings p1 p2 = 0 ∧ evaluateBreedingPair p1 p2 ss = 0 := by
  have hs : siblings p1 p2 = 0 := by unfold siblings; omega
  refine ⟨hs, ?_⟩
  rw [evaluateBreedingPair_eq_expectedBestRank, hs]
  have h0 : expectedBestRank 0 = natScore 0 := by
    have h00 := expectedBestRank_natCast 0
    rwa [Nat.cast_zero] at h00
  rw [h0, natScore_zero]

/-- Witness for C8 at a concrete zero-coverings parent. -/
theorem evaluateBreedingPair_zero_coverings_witness :
    (zeroCovParent.coveringsLeft = 0 ∨ witnessParentB.coveringsLeft = 0) ∧
    0 ≤ zeroCovParent.coveringsLeft ∧ 0 ≤ witnessParentB.coveringsLeft ∧
    (siblings zeroCovParent witnessParentB = 0 ∧
      evaluateBreedingPair zeroCovParent witnessParentB true = 0) :=
  ⟨Or.inl (by decide), by decide, by decide,
   evaluateBreedingPair_zero_coverings zeroCovParent witnessParentB true
     (Or.inl (by decide)) (by decide) (by decide)⟩

/-- C9: at `coveringsLeft = -1` the code computes `siblings = -1` — the
negative attempts count is not clamped to 0. -/
theorem siblings_not_clamped :
    siblings negativeCovParent witnessParentB = -1 ∧
    siblings negativeCovParent witnessParentB ≠ 0 := by decide

/-- C10: holding all stats fixed and raising the effective siblings count from
`k` to `k+1` (0 ≤ k ≤ 8) strictly increases the score. -/
theorem evaluateBreedingPair_strict_mono_siblings
    (p1 p2 : ChocoboParentDataParsed) (ss : Bool) (k c1 c2 : ℤ)
    (hk0 : 0 ≤ k) (hk8 : k ≤ 8)
    (h : siblings p1 p2 = k)
    (h' : siblings (setCoveringsLeft p1 c1) (setCoveringsLeft p2 c2) = k + 1) :
    evaluateBreedingPair p1 p2 ss <
      evaluateBreedingPair (setCoveringsLeft p1 c1) (setCoveringsLeft p2 c2)
        ss := by
  rw [evaluateBreedingPair_eq_expectedBestRank,
    evaluateBreedingPair_eq_expectedBestRank, h, h']
  exact expectedBestRank_lt_succ k hk0

/-- Witness for C10: bumping the effective siblings count from 7 to 8. -/
theorem evaluateBreedingPair_strict_mono_siblings_witness :
    (0 ≤ (7 : ℤ) ∧ (7 : ℤ) ≤ 8 ∧
     siblings witnessParentA witnessParentC = 7 ∧
     siblings (setCoveringsLeft witnessParentA 9)
       (setCoveringsLeft witnessParentC 8) = 7 + 1) ∧
    evaluateBreedingPair witnessParentA witnessParentC false <
      evaluateBreedingPair (setCoveringsLeft witnessParentA 9)
        (setCoveringsLeft witnessParentC 8) false :=
  ⟨⟨by decide, by decide, by decide, by decide⟩,
   evaluateBreedingPair_strict_mono_siblings witnessParentA witnessParentC
     false 7 9 8 (by decide) (by decide) (by decide) (by decide)⟩

/-- The unique genotype produced by two fully locked (all-4) parents. -/
def lockedGenotype : ChocoboGenotype := ⟨List.replicate 5 ((4 : ℚ), (4 : ℚ))⟩

lemma siblings_max_pair : siblings maxFather maxMother = ((9 : ℕ) : ℤ) := by
  decide

/-- C3 counterexample: with both parents fully locked (all alleles at the
domain maximum 4) and 9 coverings each, `evaluateBreedingPair` does not
return 1023. -/
theorem evaluateBreedingPair_perfect_pair_ne_1023 :
    evaluateBreedingPair maxFather maxMother false ≠ 1023 := by
  rw [evaluateBreedingPair_eq_expectedBestRank, siblings_max_pair,
    expectedBestRank_natCast]
  exact ne_of_lt (natScore_lt_1023 9)

set_option maxRecDepth 40000 in
/-- C3 (amended): with both parents fully locked, the genotype space is 1024
copies of the single all-maximum genotype (so all genotypes tie: the
comparator returns 0 on any two of them), but `evaluateBreedingPair` ignores
the tie structure: it returns the stat-independent value
`1023 − Σ_{i=1}^{1023} (i/1024)^9`, which is strictly less than 1023. -/
theorem evaluateBreedingPair_perfect_pair_amended :
    genotypeChildren maxFather maxMother = List.replicate 1024 lockedGenotype ∧
    createChocoboComparator false lockedGenotype lockedGenotype = 0 ∧
    evaluateBreedingPair maxFather maxMother false =
      1023 - ∑ i ∈ Finset.Icc (1 : ℕ) 1023, ((i : ℚ) / 1024) ^ 9 ∧
    evaluateBreedingPair maxFather maxMother false < 1023 := by
  refine ⟨rfl, (comparator_eq_zero_iff false _ _).mpr rfl, ?_, ?_⟩
  · rw [evaluateBreedingPair_eq_expectedBestRank, siblings_max_pair,
      expectedBestRank_natCast, natScore_closed]
  · rw [evaluateBreedingPair_eq_expectedBestRank, siblings_max_pair,
      expectedBestRank_natCast]
    exact natScore_lt_1023 9

/-- Genotype with one allele at the domain maximum 4 (in cunning). -/
def cexGenotypeA : ChocoboGenotype :=
  ⟨[(1, 1), (1, 1), (1, 1), (1, 1), (4, 1)]⟩

/-- Genotype with all alleles at the domain minimum 1. -/
def cexGenotypeB : ChocoboGenotype :=
  ⟨[(1, 1), (1, 1), (1, 1), (1, 1), (1, 1)]⟩

/-- C4 counterexample: both genotypes are within the validated 1..4 range and
A has strictly more stats containing a maximum-value (4) allele than B, yet
the comparator ranks A strictly worse than B (the code's first criterion
tests for the value 5, which no validated stat can attain, so it never
decides; the racing formula then penalises A's cunning allele). -/
theorem comparator_max_value_criterion_cex :
    genotypeInRange cexGenotypeA ∧ genotypeInRange cexGenotypeB ∧
    countMaxAlleleStats cexGenotypeB < countMaxAlleleStats cexGenotypeA ∧
    createChocoboComparator false cexGenotypeA cexGenotypeB < 0 := by
  refine ⟨by decide, by decide, by decide, ?_⟩
  have he : createChocoboComparator false cexGenotypeA cexGenotypeB =
      -3 / 2 := by
    simp [createChocoboComparator, countWithFive, countLocked, calcFormula3,
      getStatAvg, cexGenotypeA, cexGenotypeB]
    norm_num
  rw [he]
  norm_num

/-- C4 (amended): the comparator's first criterion counts stats containing an
allele equal to the literal 5 — not the schema's maximum 4. When those counts
differ the comparator is decided by that count difference alone, the greater
count being better; and every genotype within the validated 1..4 range has
count 0, so the criterion never decides among validated genotypes. -/
theorem comparator_first_criterion_amended (ss : Bool)
    (a b : ChocoboGenotype)
    (h : countWithFive a.stats ≠ countWithFive b.stats) :
    createChocoboComparator ss a b =
      (countWithFive a.stats : ℚ) - (countWithFive b.stats : ℚ) ∧
    (0 < createChocoboComparator ss a b ↔
      countWithFive b.stats < countWithFive a.stats) ∧
    (∀ g, genotypeInRange g → countWithFive g.stats = 0) := by
  have he : createChocoboComparator ss a b =
      (countWithFive a.stats : ℚ) - (countWithFive b.stats : ℚ) := by
    simp only [createChocoboComparator]
    rw [if_pos h]
  refine ⟨he, ?_, ?_⟩
  · rw [he, sub_pos]
    exact ⟨fun hlt => by exact_mod_cast hlt, fun hlt => by exact_mod_cast hlt⟩
  · intro g hg
    unfold countWithFive
    rw [List.length_eq_zero, List.filter_eq_nil_iff]
    intro p hp
    obtain ⟨⟨h1, h2⟩, h3, h4⟩ := hg p hp
    simp only [Bool.or_eq_true, decide_eq_true_eq]
    rintro (e | e)
    · rw [e] at h2; linarith
    · rw [e] at h4; linarith

/-- Genotype with a single 5-allele (legacy out-of-range value). -/
def fiveGenotype : ChocoboGenotype :=
  ⟨[(5, 1), (1, 1), (1, 1), (1, 1), (1, 1)]⟩

/-- Witness for the amended C4 at concrete genotypes with differing 5-counts. -/
theorem comparator_first_criterion_amended_witness :
    countWithFive fiveGenotype.stats ≠ countWithFive cexGenotypeB.stats ∧
    (createChocoboComparator false fiveGenotype cexGenotypeB =
        (countWithFive fiveGenotype.stats : ℚ) -
          (countWithFive cexGenotypeB.stats : ℚ) ∧
      (0 < createChocoboComparator false fiveGenotype cexGenotypeB ↔
        countWithFive cexGenotypeB.stats < countWithFive fiveGenotype.stats) ∧
      (∀ g, genotypeInRange g → countWithFive g.stats = 0)) :=
  ⟨by decide,
   comparator_first_criterion_amended false fiveGenotype cexGenotypeB
     (by decide)⟩

/-- C5: for each mode, the comparator is a strict weak ordering: the "strictly
better" relation (positive comparator value) is irreflexive and transitive,
and incomparability (comparator value 0) is an equivalence relation. -/
theorem comparator_strict_weak_order (ss : Bool) :
    (∀ a, createChocoboComparator ss a a = 0) ∧
    (∀ a, ¬ 0 < createChocoboComparator ss a a) ∧
    (∀ a b c, 0 < createChocoboComparator ss a b →
      0 < createChocoboComparator ss b c →
      0 < createChocoboComparator ss a c) ∧
    (∀ a b, createChocoboComparator ss a b = 0 →
      createChocoboComparator ss b a = 0) ∧
    (∀ a b c, createChocoboComparator ss a b = 0 →
      createChocoboComparator ss b c = 0 →
      createChocoboComparator ss a c = 0) := by
  refine ⟨?_, ?_, ?_, ?_, ?_⟩
  · intro a
    exact (comparator_eq_zero_iff ss a a).mpr rfl
  · intro a h
    rw [(comparator_eq_zero_iff ss a a).mpr rfl] at h
    exact lt_irrefl 0 h
  · intro a b c hab hbc
    rw [comparator_pos_iff] at hab hbc ⊢
    exact lt_trans hbc hab
  · intro a b h
    rw [comparator_eq_zero_iff] at h ⊢
    exact h.symm
  · intro a b c hab hbc
    rw [comparator_eq_zero_iff] at hab hbc ⊢
    exact hab.trans hbc

lemma comparator_pos_of_five_count_lt (ss : Bool) (a b : ChocoboGenotype)
    (h : countWithFive b.stats < countWithFive a.stats) :
    0 < createChocoboComparator ss a b := by
  have hne : countWithFive a.stats ≠ countWithFive b.stats := by omega
  have he : createChocoboComparator ss a b =
      (countWithFive a.stats : ℚ) - (countWithFive b.stats : ℚ) := by
    simp only [createChocoboComparator]
    rw [if_pos hne]
  rw [he, sub_pos]
  exact_mod_cast h

/-- Genotype with two locked-at-5 stats. -/
def wGenotype1 : ChocoboGenotype :=
  ⟨[(5, 5), (5, 5), (1, 1), (1, 1), (1, 1)]⟩

/-- Genotype with one 5-allele. -/
def wGenotype2 : ChocoboGenotype :=
  ⟨[(5, 1), (1, 1), (1, 1), (1, 1), (1, 1)]⟩

/-- Genotype with no 5-allele. -/
def wGenotype3 : ChocoboGenotype :=
  ⟨[(1, 1), (1, 1), (1, 1), (1, 1), (1, 1)]⟩

/-- Witness for C5: transitivity of "strictly better" at concrete genotypes. -/
theorem comparator_strict_weak_order_witness :
    0 < createChocoboComparator false wGenotype1 wGenotype2 ∧
    0 < createChocoboComparator false wGenotype2 wGenotype3 ∧
    0 < createChocoboComparator false wGenotype1 wGenotype3 :=
  ⟨comparator_pos_of_five_count_lt false wGenotype1 wGenotype2 (by decide),
   comparator_pos_of_five_count_lt false wGenotype2 wGenotype3 (by decide),
   (comparator_strict_weak_order false).2.2.1 wGenotype1 wGenotype2 wGenotype3
     (comparator_pos_of_five_count_lt false wGenotype1 wGenotype2 (by decide))
     (comparator_pos_of_five_count_lt false wGenotype2 wGenotype3 (by decide))⟩

/-- C6: the search returns `none` exactly when the male or female partition of
the filtered candidates is empty; otherwise it returns the first maximal
pairing of the male-outer, female-inner cross product, whose stored score is
the maximum pair score over the whole cross product. -/
theorem findOptimalBreedingPair_correct (chocobos : List Chocobo) :
    ((chocobos.filter fun c => c.gender == "male") = [] ∨
        (chocobos.filter fun c => c.gender == "female") = [] →
      findOptimalBreedingPair chocobos = none) ∧
    ((chocobos.filter fun c => c.gender == "male") ≠ [] →
      (chocobos.filter fun c => c.gender == "female") ≠ [] →
      findOptimalBreedingPair chocobos =
        (firstMaxBy pairScore
          (crossList (chocobos.filter fun c => c.gender == "male")
            (chocobos.filter fun c => c.gender == "female"))).map resultOf) ∧
    (∀ r, findOptimalBreedingPair chocobos = some r →
      (r.father, r.mother) ∈
        crossList (chocobos.filter fun c => c.gender == "male")
          (chocobos.filter fun c => c.gender == "female") ∧
      r.score = pairScore (r.father, r.mother) ∧
      ∀ p ∈ crossList (chocobos.filter fun c => c.gender == "male")
          (chocobos.filter fun c => c.gender == "female"),
        pairScore p ≤ r.score) := by
  refine ⟨?_, ?_, ?_⟩
  · intro h
    rw [findOptimal_char]
    have hb : ((chocobos.filter fun c => c.gender == "male").isEmpty ||
        (chocobos.filter fun c => c.gender == "female").isEmpty) = true := by
      rcases h with h | h <;> simp [h]
    rw [if_pos hb]
  · intro h1 h2
    rw [findOptimal_char, if_neg]
    simp only [Bool.or_eq_true, List.isEmpty_iff]
    rintro (h | h)
    · exact h1 h
    · exact h2 h
  · intro r hr
    rw [findOptimal_char] at hr
    by_cases hcond : ((chocobos.filter fun c => c.gender == "male").isEmpty ||
        (chocobos.filter fun c => c.gender == "female").isEmpty) = true
    · rw [if_pos hcond] at hr
      cases hr
    · rw [if_neg hcond] at hr
      obtain ⟨p, hp, hmap⟩ := Option.map_eq_some'.mp hr
      obtain ⟨p1, p2⟩ := p
      obtain ⟨hmem, hle⟩ := firstMaxBy_mem_le pairScore _ _ hp
      subst hmap
      exact ⟨hmem, rfl, fun q hq => hle q hq⟩

/-- Concrete male candidate for the search witness. -/
def witnessMale : Chocobo :=
  ⟨"m1", "male", ⟨1, 2, 3, 4, 1, 2, 3, 4, 1, 2⟩, 9⟩

/-- Concrete female candidate for the search witness. -/
def witnessFemale : Chocobo :=
  ⟨"f1", "female", ⟨4, 3, 2, 1, 4, 3, 2, 1, 4, 3⟩, 7⟩

/-- Witness for C6: the empty collection gives `none`; a one-male, one-female
collection gives the first-maximal pairing of the cross product. -/
theorem findOptimalBreedingPair_correct_witness :
    findOptimalBreedingPair [] = none ∧
    (([witnessMale, witnessFemale].filter fun c => c.gender == "male") ≠ [] ∧
     ([witnessMale, witnessFemale].filter fun c => c.gender == "female") ≠ []) ∧
    findOptimalBreedingPair [witnessMale, witnessFemale] =
      (firstMaxBy pairScore
        (crossList
          ([witnessMale, witnessFemale].filter fun c => c.gender == "male")
          ([witnessMale, witnessFemale].filter fun c =>
            c.gender == "female"))).map resultOf :=
  ⟨(findOptimalBreedingPair_correct []).1 (Or.inl rfl),
   ⟨by decide, by decide⟩,
   (findOptimalBreedingPair_correct [witnessMale, witnessFemale]).2.1
     (by decide) (by decide)⟩

lemma statOptions_eq (parent1 parent2 : ChocoboParentDataParsed) :
    statOptions parent1 parent2 =
      [[(parent1.fatherMaxSpeed, parent2.fatherMaxSpeed),
        (parent1.fatherMaxSpeed, parent2.motherMaxSpeed),
        (parent1.motherMaxSpeed, parent2.fatherMaxSpeed),
        (parent1.motherMaxSpeed, parent2.motherMaxSpeed)],
       [(parent1.fatherAcceleration, parent2.fatherAcceleration),
        (parent1.fatherAcceleration, parent2.motherAcceleration),
        (parent1.motherAcceleration, parent2.fatherAcceleration),
        (parent1.motherAcceleration, parent2.motherAcceleration)],
       [(parent1.fatherEndurance, parent2.fatherEndurance),
        (parent1.fatherEndurance, parent2.motherEndurance),
        (parent1.motherEndurance, parent2.fatherEndurance),
        (parent1.motherEndurance, parent2.motherEndurance)],
       [(parent1.fatherStamina, parent2.fatherStamina),
        (parent1.fatherStamina, parent2.motherStamina),
        (parent1.motherStamina, parent2.fatherStamina),
        (parent1.motherStamina, parent2.motherStamina)],
       [(parent1.fatherCunning, parent2.fatherCunning),
        (parent1.fatherCunning, parent2.motherCunning),
        (parent1.motherCunning, parent2.fatherCunning),
        (parent1.motherCunning, parent2.motherCunning)]] := rfl

lemma cartesianProduct_single {α : Type} (a : List α) :
    cartesianProduct [a] = a.map fun item => [item] := rfl

lemma cartesianProduct_cons2 {α : Type} (x y : List α) (rest : List (List α)) :
    cartesianProduct (x :: y :: rest) =
      x.flatMap fun item =>
        (cartesianProduct (y :: rest)).map fun combo => item :: combo := rfl

lemma cartesianProduct_five {α : Type} (a b c d e : List α) :
    cartesianProduct [a, b, c, d, e] =
      a.flatMap fun s0 => b.flatMap fun s1 => c.flatMap fun s2 =>
      d.flatMap fun s3 => e.map fun s4 => [s0, s1, s2, s3, s4] := by
  rw [cartesianProduct_cons2, cartesianProduct_cons2, cartesianProduct_cons2,
    cartesianProduct_cons2, cartesianProduct_single]
  simp only [List.map_flatMap, List.map_map]
  rfl

lemma sum_map_const {α : Type} (l : List α) (c : ℕ) :
    (l.map fun _ => c).sum = l.length * c := by
  induction l with
  | nil => simp
  | cons x xs ih => simp [ih, Nat.succ_mul, Nat.add_comm]

lemma cartesianProduct_length {α : Type} (L : List (List α)) :
    (cartesianProduct L).length = (L.map List.length).prod := by
  induction L with
  | nil => rfl
  | cons x rest ih =>
      cases rest with
      | nil => simp [cartesianProduct_single]
      | cons y restTail =>
          rw [cartesianProduct_cons2, List.length_flatMap]
          simp only [Function.comp_def, List.length_map]
          rw [ih, sum_map_const]
          simp [List.prod_cons]

/-- C7: for any two parents, the genotype space built by
`evaluateBreedingPair` has exactly 1024 elements regardless of the stat
values, and is exactly the lexicographic enumeration over the per-stat 4-way
choice lists (per-stat order FF, FM, MF, MM over the two parents' father and
mother alleles; fixed stat order maxSpeed, acceleration, endurance, stamina,
cunning), the first stat varying slowest: nested loops with maxSpeed
outermost and cunning innermost. -/
theorem allGenotypeCombos_lex (parent1 parent2 : ChocoboParentDataParsed) :
    (allGenotypeCombos parent1 parent2).length = 1024 ∧
    allGenotypeCombos parent1 parent2 =
      ([(parent1.fatherMaxSpeed, parent2.fatherMaxSpeed),
        (parent1.fatherMaxSpeed, parent2.motherMaxSpeed),
        (parent1.motherMaxSpeed, parent2.fatherMaxSpeed),
        (parent1.motherMaxSpeed, parent2.motherMaxSpeed)].flatMap fun s0 =>
       [(parent1.fatherAcceleration, parent2.fatherAcceleration),
        (parent1.fatherAcceleration, parent2.motherAcceleration),
        (parent1.motherAcceleration, parent2.fatherAcceleration),
        (parent1.motherAcceleration, parent2.motherAcceleration)].flatMap
          fun s1 =>
       [(parent1.fatherEndurance, parent2.fatherEndurance),
        (parent1.fatherEndurance, parent2.motherEndurance),
        (parent1.motherEndurance, parent2.fatherEndurance),
        (parent1.motherEndurance, parent2.motherEndurance)].flatMap fun s2 =>
       [(parent1.fatherStamina, parent2.fatherStamina),
        (parent1.fatherStamina, parent2.motherStamina),
        (parent1.motherStamina, parent2.fatherStamina),
        (parent1.motherStamina, parent2.motherStamina)].flatMap fun s3 =>
       [(parent1.fatherCunning, parent2.fatherCunning),
        (parent1.fatherCunning, parent2.motherCunning),
        (parent1.motherCunning, parent2.fatherCunning),
        (parent1.motherCunning, parent2.motherCunning)].map fun s4 =>
         [s0, s1, s2, s3, s4]) := by
  constructor
  · rw [allGenotypeCombos, cartesianProduct_length, statOptions_eq]
    simp
  · rw [allGenotypeCombos, statOptions_eq, cartesianProduct_five]

end ChocoboBreeding
